import Mathlib

/-!
Verification of the streaming, tool-calling conversation engine of the
desktop application (src/src/main/main.ts).  The definitions below are a
shallow embedding of the AI-chat data model, the conversation store
(`ChatStorage`), the tool sandbox (`executeTool`), the SSE stream decoder
and the plain-JSON fallback inside `streamSingleTurn`, the agentic loop
(`streamingChatLoop`), and the `chat:ai-send` / `chat:ai-send-stream` IPC
handlers.  External effects (the HTTP proxy, the filesystem, child
processes, the Electron IPC channel) are modelled as explicit parameters:
the proxy as a function from the request message history to a response,
the filesystem and shell as a record of fallible operations, and IPC
notifications as an ordered output list.
-/

/-- JSON values, as produced by `JSON.parse`. Objects keep field order. -/
inductive Json where
  | null : Json
  | bool (b : Bool) : Json
  | num (n : Int) : Json
  | str (s : String) : Json
  | arr (xs : List Json) : Json
  | obj (fields : List (String × Json)) : Json

/-- The tool-input map type, `Record<string, unknown>` in the source,
always obtained from parsing a JSON object. -/
def ToolInput := List (String × Json)

/-- One tagged content block (`type ContentBlock` in main.ts). The
the `is_error` field of a `tool_result` block is optional in the source type. -/
inductive ContentBlock where
  | text (text : String) : ContentBlock
  | thinking (thinking : String) : ContentBlock
  | tool_use (id : String) (name : String) (input : ToolInput) : ContentBlock
  | tool_result (tool_use_id : String) (content : String) (is_error : Option Bool) : ContentBlock

/-- Message role, the union of the `user` and `assistant` string literals in the source. -/
inductive Role where
  | user : Role
  | assistant : Role
deriving DecidableEq

/-- Message content: a plain string or a block list (`string | ContentBlock[]`). -/
inductive MsgContent where
  | str (s : String) : MsgContent
  | blocks (bs : List ContentBlock) : MsgContent

/-- `type AiChatMessage` from main.ts. -/
structure AiChatMessage where
  role : Role
  content : MsgContent

/-- `type AiConversation` from main.ts.  Timestamps are `Date.now()`
values, modelled as integers. -/
structure AiConversation where
  id : String
  title : String
  model : String
  messages : List AiChatMessage
  createdAt : Int
  updatedAt : Int

/-! ### Conversation store (`ChatStorage`)

`save` writes `JSON.stringify(conv)` to `<dir>/<id>.json`; `get` reads the
file and runs `JSON.parse` with an unchecked cast to `AiConversation`.
The store is modelled at the JSON-value level: a list of
(filename-key, parsed JSON document) pairs.  `encodeConv` is the JSON
document `JSON.stringify` produces for a conversation (field order as in
the object literals; an absent optional field is omitted, exactly as
`JSON.stringify` drops `undefined` properties), and `decodeConv` is the
structural reading of such a document back into the `AiConversation`
shape, which is what the unchecked cast in the source amounts to for
documents that were produced by `save`. -/

def Store := List (String × Json)

/-- Overwrite-or-insert, the filesystem `writeFile` semantics keyed by id. -/
def storeSet : Store → String → Json → Store
  | [], k, v => [(k, v)]
  | (k', v') :: rest, k, v =>
      if k' = k then (k, v) :: rest else (k', v') :: storeSet rest k v

/-- Read the raw stored document for an id, `none` when the file is absent. -/
def storeFind (s : Store) (k : String) : Option Json :=
  (s.find? (fun p => p.1 == k)).map (fun p => p.2)

def encodeRole : Role → Json
  | Role.user => Json.str "user"
  | Role.assistant => Json.str "assistant"

def encodeBlock : ContentBlock → Json
  | ContentBlock.text t =>
      Json.obj [("type", Json.str "text"), ("text", Json.str t)]
  | ContentBlock.thinking t =>
      Json.obj [("type", Json.str "thinking"), ("thinking", Json.str t)]
  | ContentBlock.tool_use i n inp =>
      Json.obj [("type", Json.str "tool_use"), ("id", Json.str i),
                ("name", Json.str n), ("input", Json.obj inp)]
  | ContentBlock.tool_result tid c ie =>
      Json.obj ([("type", Json.str "tool_result"), ("tool_use_id", Json.str tid),
                 ("content", Json.str c)] ++
        (match ie with
         | some b => [("is_error", Json.bool b)]
         | none => []))

def encodeContent : MsgContent → Json
  | MsgContent.str s => Json.str s
  | MsgContent.blocks bs => Json.arr (bs.map encodeBlock)

def encodeMsg (m : AiChatMessage) : Json :=
  Json.obj [("role", encodeRole m.role), ("content", encodeContent m.content)]

def encodeConv (c : AiConversation) : Json :=
  Json.obj [("id", Json.str c.id), ("title", Json.str c.title),
            ("model", Json.str c.model),
            ("messages", Json.arr (c.messages.map encodeMsg)),
            ("createdAt", Json.num c.createdAt),
            ("updatedAt", Json.num c.updatedAt)]

/-- Field lookup inside a parsed JSON object. -/
def jlookup (fs : List (String × Json)) (k : String) : Option Json :=
  (fs.find? (fun p => p.1 == k)).map (fun p => p.2)

def asStr : Option Json → Option String
  | some (Json.str s) => some s
  | _ => none

def asInt : Option Json → Option Int
  | some (Json.num n) => some n
  | _ => none

def decodeRole : Json → Option Role
  | Json.str "user" => some Role.user
  | Json.str "assistant" => some Role.assistant
  | _ => none

def decodeBlock : Json → Option ContentBlock
  | Json.obj fs =>
    match asStr (jlookup fs "type") with
    | some "text" =>
        (asStr (jlookup fs "text")).map ContentBlock.text
    | some "thinking" =>
        (asStr (jlookup fs "thinking")).map ContentBlock.thinking
    | some "tool_use" =>
        match asStr (jlookup fs "id"), asStr (jlookup fs "name"), jlookup fs "input" with
        | some i, some n, some (Json.obj inp) => some (ContentBlock.tool_use i n inp)
        | _, _, _ => none
    | some "tool_result" =>
        match asStr (jlookup fs "tool_use_id"), asStr (jlookup fs "content") with
        | some tid, some c =>
            some (ContentBlock.tool_result tid c
              (match jlookup fs "is_error" with
               | some (Json.bool b) => some b
               | _ => none))
        | _, _ => none
    | _ => none
  | _ => none

def decodeBlocks : List Json → Option (List ContentBlock)
  | [] => some []
  | j :: rest =>
    match decodeBlock j, decodeBlocks rest with
    | some b, some bs => some (b :: bs)
    | _, _ => none

def decodeContent : Json → Option MsgContent
  | Json.str s => some (MsgContent.str s)
  | Json.arr xs => (decodeBlocks xs).map MsgContent.blocks
  | _ => none

def decodeMsg : Json → Option AiChatMessage
  | Json.obj fs =>
    match jlookup fs "role", jlookup fs "content" with
    | some r, some c =>
      match decodeRole r, decodeContent c with
      | some role, some content => some ⟨role, content⟩
      | _, _ => none
    | _, _ => none
  | _ => none

def decodeMsgs : List Json → Option (List AiChatMessage)
  | [] => some []
  | j :: rest =>
    match decodeMsg j, decodeMsgs rest with
    | some m, some ms => some (m :: ms)
    | _, _ => none

def decodeConv : Json → Option AiConversation
  | Json.obj fs =>
    match asStr (jlookup fs "id"), asStr (jlookup fs "title"),
          asStr (jlookup fs "model"), jlookup fs "messages",
          asInt (jlookup fs "createdAt"), asInt (jlookup fs "updatedAt") with
    | some i, some t, some m, some (Json.arr ms), some ca, some ua =>
      match decodeMsgs ms with
      | some msgs => some ⟨i, t, m, msgs, ca, ua⟩
      | none => none
    | _, _, _, _, _, _ => none
  | _ => none

/-- `ChatStorage.save`: full overwrite of the serialized record. -/
def storeSave (s : Store) (conv : AiConversation) : Store :=
  storeSet s conv.id (encodeConv conv)

/-- `ChatStorage.get`: read the record back; `none` models the `null`
returned when the file is missing or unreadable. -/
def storeGet (s : Store) (id : String) : Option AiConversation :=
  match storeFind s id with
  | some j => decodeConv j
  | none => none

/-! ### Notifications

The `mainWindow?.webContents.send(...)` pushes made by the chat code,
modelled as an ordered output list.  Each constructor is one channel with
the payload fields the source attaches. -/

inductive ChatNotif where
  | userPersisted (conversationId : String) (message : AiChatMessage) : ChatNotif
  | aiDone (conversationId : String) (message : AiChatMessage) : ChatNotif
  | aiError (conversationId : String) (error : String) : ChatNotif
  | streamStart (conversationId : String) (turn : Nat) : ChatNotif
  | blockStart (conversationId : String) (index : Int) (blockType : String)
      (toolId toolName : Option String) : ChatNotif
  | streamDelta (conversationId : String) (index : Int) (blockType : String)
      (text : String) : ChatNotif
  | blockStop (conversationId : String) (index : Int) (blockType : String)
      (toolId toolName : Option String) (input : Option ToolInput) : ChatNotif
  | toolExecuting (conversationId : String) (toolUseId name : String)
      (input : ToolInput) : ChatNotif
  | toolResult (conversationId : String) (toolUseId output : String)
      (isError : Bool) : ChatNotif
  | streamDone (conversationId : String) : ChatNotif
  | streamError (conversationId : String) (error : String) : ChatNotif

/-! ### SSE stream decoder (`streamSingleTurn`, SSE branch)

The source reads the response body, splits it into `data: ` lines and
`JSON.parse`s each payload, skipping malformed lines; the embedding
starts from the resulting typed event sequence.  Parsing the accumulated
tool-input JSON is abstracted as a `parse` function returning the parsed
object map, with `none` standing for a `JSON.parse` throw. -/

/-- The `content_block` object carried by a `content_block_start` event. -/
structure StartBlockInfo where
  type : String
  text : Option String
  id : Option String
  name : Option String

/-- The `delta` object of a `content_block_delta` event, keyed by
`delta.type`; `other` stands for any unrecognized delta type. -/
inductive DeltaPayload where
  | textDelta (text : String) : DeltaPayload
  | inputJsonDelta (partial_json : String) : DeltaPayload
  | thinkingDelta (thinking : String) : DeltaPayload
  | other (type : String) : DeltaPayload

/-- One parsed SSE event, keyed by `event.type`; `other` stands for any
unrecognized event type (ignored by the switch). -/
inductive SseEvent where
  | content_block_start (index : Int) (content_block : Option StartBlockInfo) : SseEvent
  | content_block_delta (delta : Option DeltaPayload) : SseEvent
  | content_block_stop : SseEvent
  | message_stop : SseEvent
  | message_delta : SseEvent
  | other (type : String) : SseEvent

/-- The mutable locals of the decoder in `streamSingleTurn`. -/
structure SseState where
  blocks : List ContentBlock
  notifs : List ChatNotif
  currentBlockIndex : Int
  currentBlockType : String
  textAccum : String
  toolJsonAccum : String
  currentToolId : String
  currentToolName : String

def initSseState : SseState :=
  { blocks := [], notifs := [], currentBlockIndex := -1, currentBlockType := "",
    textAccum := "", toolJsonAccum := "", currentToolId := "", currentToolName := "" }

/-- The `JSON.parse` of the accumulator (or of the literal empty object
when the accumulator is empty) with catch-to-empty at
`content_block_stop`: an empty accumulator parses the literal empty
object, and a parse failure leaves the default empty map. -/
def parseToolInput (parse : String → Option ToolInput) (accum : String) : ToolInput :=
  match parse (if accum = "" then "\x7b\x7d" else accum) with
  | some v => v
  | none => []

/-- One step of the SSE switch in `streamSingleTurn`. -/
def sseStep (parse : String → Option ToolInput) (cid : String)
    (st : SseState) (ev : SseEvent) : SseState :=
  match ev with
  | SseEvent.content_block_start index content_block =>
    let blockType := match content_block with
      | some cb => cb.type
      | none => "text"
    let st := { st with currentBlockIndex := index, currentBlockType := blockType }
    if blockType = "text" then
      { st with
          textAccum := (content_block.bind (fun cb => cb.text)).getD "",
          notifs := st.notifs ++ [ChatNotif.blockStart cid index "text" none none] }
    else if blockType = "tool_use" then
      let toolId := (content_block.bind (fun cb => cb.id)).getD ""
      let toolName := (content_block.bind (fun cb => cb.name)).getD ""
      { st with
          currentToolId := toolId, currentToolName := toolName, toolJsonAccum := "",
          notifs := st.notifs ++
            [ChatNotif.blockStart cid index "tool_use" (some toolId) (some toolName)] }
    else if blockType = "thinking" then
      { st with
          textAccum := "",
          notifs := st.notifs ++ [ChatNotif.blockStart cid index "thinking" none none] }
    else st
  | SseEvent.content_block_delta delta =>
    match delta with
    | some (DeltaPayload.textDelta text) =>
      { st with
          textAccum := st.textAccum ++ text,
          notifs := st.notifs ++
            [ChatNotif.streamDelta cid st.currentBlockIndex "text" text] }
    | some (DeltaPayload.inputJsonDelta pj) =>
      { st with toolJsonAccum := st.toolJsonAccum ++ pj }
    | some (DeltaPayload.thinkingDelta t) =>
      { st with
          textAccum := st.textAccum ++ t,
          notifs := st.notifs ++
            [ChatNotif.streamDelta cid st.currentBlockIndex "thinking" t] }
    | some (DeltaPayload.other _) => st
    | none => st
  | SseEvent.content_block_stop =>
    let st1 :=
      if st.currentBlockType = "text" then
        { st with
            blocks := st.blocks ++ [ContentBlock.text st.textAccum],
            notifs := st.notifs ++
              [ChatNotif.blockStop cid st.currentBlockIndex "text" none none none] }
      else if st.currentBlockType = "tool_use" then
        let parsedInput := parseToolInput parse st.toolJsonAccum
        { st with
            blocks := st.blocks ++
              [ContentBlock.tool_use st.currentToolId st.currentToolName parsedInput],
            notifs := st.notifs ++
              [ChatNotif.blockStop cid st.currentBlockIndex "tool_use"
                (some st.currentToolId) (some st.currentToolName) (some parsedInput)] }
      else if st.currentBlockType = "thinking" then
        { st with
            blocks := st.blocks ++ [ContentBlock.thinking st.textAccum],
            notifs := st.notifs ++
              [ChatNotif.blockStop cid st.currentBlockIndex "thinking" none none none] }
      else st
    { st1 with textAccum := "", toolJsonAccum := "" }
  | SseEvent.message_stop => st
  | SseEvent.message_delta => st
  | SseEvent.other _ => st

/-- Reduce a full SSE event sequence into the final decoder state. -/
def decodeSse (parse : String → Option ToolInput) (cid : String)
    (events : List SseEvent) : SseState :=
  events.foldl (sseStep parse cid) initSseState

/-- Concatenation of a fragment list in arrival order. -/
def concatStrings : List String → String
  | [] => ""
  | s :: rest => s ++ concatStrings rest

/-! ### Plain-JSON fallback (`streamSingleTurn`, non-SSE branch)

When the response content type is not `text/event-stream`, the source
reads one JSON document and walks `result.content ?? []`.  A document
block carries the fields the source reads (`type`, `text`, `id`, `name`,
`input`); a `thinking` document block would carry its text under a
`thinking` key, which the fallback never reads. -/

structure JsonDocBlock where
  type : String
  text : Option String
  thinking : Option String
  id : Option String
  name : Option String
  input : Option ToolInput

/-- The fallback loop: push a completed block per `text` / `tool_use`
document block (one `chat:ai-stream-delta` per text block) and skip
everything else. -/
def streamSingleTurnFallback (cid : String) (content : List JsonDocBlock) :
    List ContentBlock × List ChatNotif :=
  content.foldl
    (fun acc b =>
      if b.type = "text" then
        (acc.1 ++ [ContentBlock.text (b.text.getD "")],
         acc.2 ++ [ChatNotif.streamDelta cid 0 "text" (b.text.getD "")])
      else if b.type = "tool_use" then
        (acc.1 ++ [ContentBlock.tool_use (b.id.getD "") (b.name.getD "") (b.input.getD [])],
         acc.2)
      else acc)
    ([], [])

/-- The completed block a document block corresponds to under the
fallback path (`none` for block types the fallback skips). -/
def fallbackBlockOf (b : JsonDocBlock) : Option ContentBlock :=
  if b.type = "text" then some (ContentBlock.text (b.text.getD ""))
  else if b.type = "tool_use" then
    some (ContentBlock.tool_use (b.id.getD "") (b.name.getD "") (b.input.getD []))
  else none

/-- The SSE event sequence for one already-completed document block: the
block opened, its payload delivered as a single delta, and the block
closed.  `ser` chooses the JSON serialization of the input of a tool block. -/
def sseEventsOfDocBlock (ser : JsonDocBlock → String) (b : JsonDocBlock) : List SseEvent :=
  if b.type = "text" then
    [SseEvent.content_block_start 0 (some ⟨"text", b.text, none, none⟩),
     SseEvent.content_block_stop]
  else if b.type = "tool_use" then
    [SseEvent.content_block_start 0 (some ⟨"tool_use", none, b.id, b.name⟩),
     SseEvent.content_block_delta (some (DeltaPayload.inputJsonDelta (ser b))),
     SseEvent.content_block_stop]
  else if b.type = "thinking" then
    [SseEvent.content_block_start 0 (some ⟨"thinking", none, none, none⟩),
     SseEvent.content_block_delta (some (DeltaPayload.thinkingDelta (b.thinking.getD ""))),
     SseEvent.content_block_stop]
  else []

/-! ### Tool sandbox (`executeTool`)

The filesystem and child-process operations awaited by the tool cases
are modelled as a record of fallible functions; `Except.error msg`
stands for a rejected promise whose `Error` carries `msg`, which the
top-level catch of the source converts into an error outcome.  JavaScript
value coercions (`String(...)`, `Number(...)`, truthiness) are embedded
for the JSON values a parsed tool input can contain. -/

/-- The result shape of every tool execution. -/
structure ToolOutcome where
  output : String
  isError : Bool
deriving DecidableEq

/-- stdout/stderr of a completed child process. -/
structure ExecResult where
  stdout : String
  stderr : String

/-- One `readdir` entry with its `withFileTypes` directory marker. -/
structure DirEntry where
  name : String
  isDir : Bool

/-- A grep child-process failure: its exit code (when the process ran)
and the error message. -/
structure GrepFailure where
  code : Option Int
  message : String

/-- The external operations `executeTool` awaits.  `execBash` runs
`/bin/bash -c command` with the given timeout (the 10 MB `maxBuffer` and
home cwd are fixed options of the call); `mkdirParent` is
`mkdir(path.dirname(filePath), recursive)`; `findFiles basePath pattern`
is `find basePath -name pattern -type f`; `grepRun pattern path include`
is `grep -rn pattern path [--include glob]`. -/
structure ToolEnv where
  execBash : String → Int → Except String ExecResult
  readFileFs : String → Except String String
  mkdirParent : String → Except String Unit
  writeFileFs : String → String → Except String Unit
  readdirFs : String → Except String (List DirEntry)
  findFiles : String → String → Except String ExecResult
  grepRun : String → String → Option String → Except GrepFailure ExecResult

/-- JavaScript `String(v)` for a parsed JSON value (array conversion
joins the recursively converted elements with commas). -/
def jsToString : Json → String
  | Json.null => "null"
  | Json.bool b => if b then "true" else "false"
  | Json.num n => toString n
  | Json.str s => s
  | Json.arr xs => String.intercalate "," (xs.attach.map (fun x => jsToString x.1))
  | Json.obj _ => "[object Object]"
decreasing_by
  simp_wf
  have h := List.sizeOf_lt_of_mem x.2
  omega

/-- JavaScript `Number(v)` for a parsed JSON value; `none` is `NaN`.
String-to-number parsing is not needed by any tool input the claims
touch and is modelled as `NaN`. -/
def jsToNumber : Json → Option Int
  | Json.null => some 0
  | Json.bool b => some (if b then 1 else 0)
  | Json.num n => some n
  | _ => none

/-- JavaScript truthiness of a parsed JSON value. -/
def jsTruthy : Json → Bool
  | Json.null => false
  | Json.bool b => b
  | Json.num n => n != 0
  | Json.str s => s != ""
  | Json.arr _ => true
  | Json.obj _ => true

/-- Property read on the input map: `input.k`. -/
def inputGet (input : ToolInput) (k : String) : Option Json :=
  (input.find? (fun p => p.1 == k)).map (fun p => p.2)

/-- `String(input.k ?? d)`: an absent or null property falls back to the
default before coercion. -/
def inputGetString (input : ToolInput) (k : String) (d : String) : String :=
  match inputGet input k with
  | none => d
  | some Json.null => d
  | some v => jsToString v

/-- `Number(input.k)`, `NaN` as `none`. -/
def inputGetNumber (input : ToolInput) (k : String) : Option Int :=
  match inputGet input k with
  | none => none
  | some v => jsToNumber v

/-- The 30000-character output cap with its truncation marker. -/
def capOutput (s : String) : String :=
  if s.length > 30000 then s.take 30000 ++ "\n... (truncated)" else s

/-- The `bash` tool case. -/
def bashToolCase (env : ToolEnv) (input : ToolInput) : Except String ToolOutcome :=
  let command := inputGetString input "command" ""
  if command = "" then Except.ok ⟨"No command provided", true⟩
  else
    let timeout :=
      min (max (match inputGetNumber input "timeout" with
                | some n => if n = 0 then 120000 else n
                | none => 120000) 1000) 120000
    match env.execBash command timeout with
    | Except.error e => Except.error e
    | Except.ok r =>
      let result := r.stdout
      let result := if r.stderr ≠ "" then result ++ (if result ≠ "" then "\n" else "") ++ r.stderr
                    else result
      let result := capOutput result
      Except.ok ⟨if result = "" then "(no output)" else result, false⟩

/-- The `read_file` tool case. -/
def readFileToolCase (env : ToolEnv) (input : ToolInput) : Except String ToolOutcome :=
  let filePath := inputGetString input "path" ""
  if filePath = "" then Except.ok ⟨"No path provided", true⟩
  else
    match env.readFileFs filePath with
    | Except.error e => Except.error e
    | Except.ok content =>
      let content :=
        match inputGetNumber input "limit" with
        | some l =>
            if l > 0 then String.intercalate "\n" ((content.splitOn "\n").take l.toNat)
            else content
        | none => content
      Except.ok ⟨capOutput content, false⟩

/-- The `write_file` tool case. -/
def writeFileToolCase (env : ToolEnv) (input : ToolInput) : Except String ToolOutcome :=
  let filePath := inputGetString input "path" ""
  let content := inputGetString input "content" ""
  if filePath = "" then Except.ok ⟨"No path provided", true⟩
  else
    match env.mkdirParent filePath with
    | Except.error e => Except.error e
    | Except.ok _ =>
      match env.writeFileFs filePath content with
      | Except.error e => Except.error e
      | Except.ok _ =>
        Except.ok ⟨"Wrote " ++ toString content.length ++ " characters to " ++ filePath, false⟩

/-- The `list_directory` tool case. -/
def listDirectoryToolCase (env : ToolEnv) (input : ToolInput) : Except String ToolOutcome :=
  let dirPath := inputGetString input "path" "."
  match env.readdirFs dirPath with
  | Except.error e => Except.error e
  | Except.ok entries =>
    let lines := entries.map (fun e => (if e.isDir then "d" else "f") ++ " " ++ e.name)
    let out := String.intercalate "\n" lines
    Except.ok ⟨if out = "" then "(empty directory)" else out, false⟩

/-- The `search_files` tool case. -/
def searchFilesToolCase (env : ToolEnv) (input : ToolInput) : Except String ToolOutcome :=
  let pat := inputGetString input "pattern" ""
  let basePath := inputGetString input "path" "."
  if pat = "" then Except.ok ⟨"No pattern provided", true⟩
  else
    match env.findFiles basePath pat with
    | Except.error e => Except.error e
    | Except.ok r =>
      let result := r.stdout.trim
      if result.length > 30000 then
        Except.ok ⟨result.take 30000 ++ "\n... (truncated)", false⟩
      else Except.ok ⟨if result = "" then "No files found" else result, false⟩

/-- The `grep` tool case: an exit code of 1 is the successful no-match
result, any other failure is rethrown. -/
def grepToolCase (env : ToolEnv) (input : ToolInput) : Except String ToolOutcome :=
  let pat := inputGetString input "pattern" ""
  let searchPath := inputGetString input "path" "."
  if pat = "" then Except.ok ⟨"No pattern provided", true⟩
  else
    let incl := match inputGet input "include" with
      | some v => if jsTruthy v then some (jsToString v) else none
      | none => none
    match env.grepRun pat searchPath incl with
    | Except.ok r =>
      let result := capOutput r.stdout.trim
      Except.ok ⟨if result = "" then "No matches found" else result, false⟩
    | Except.error ge =>
      if ge.code = some 1 then Except.ok ⟨"No matches found", false⟩
      else Except.error ge.message

/-- The `switch (name)` body of `executeTool`, before the surrounding
try/catch; an unrecognized name returns the unknown-tool error outcome
without throwing. -/
def executeToolBody (env : ToolEnv) (name : String) (input : ToolInput) :
    Except String ToolOutcome :=
  if name = "bash" then bashToolCase env input
  else if name = "read_file" then readFileToolCase env input
  else if name = "write_file" then writeFileToolCase env input
  else if name = "list_directory" then listDirectoryToolCase env input
  else if name = "search_files" then searchFilesToolCase env input
  else if name = "grep" then grepToolCase env input
  else Except.ok ⟨"Unknown tool: " ++ name, true⟩

/-- `executeTool`: the switch wrapped in the catch that converts any
thrown failure into an error outcome. -/
def executeTool (env : ToolEnv) (name : String) (input : ToolInput) : ToolOutcome :=
  match executeToolBody env name input with
  | Except.ok r => r
  | Except.error e => ⟨e, true⟩

/-! ### Agentic loop (`streamingChatLoop`) and send handlers

`streamSingleTurn` is abstracted as a function from the request message
history to either the completed block list of the turn or a thrown error (a
rejected fetch, e.g. an abort).  `executeTool` is abstracted as a
function from tool name and input to its outcome, instantiable with
`executeTool env`.  Each run also returns the trace of model
invocations, one entry per `streamSingleTurn` call. -/

/-- A thrown JavaScript error, as inspected by the catch of each handler
(`err.name`, `err.message`). -/
structure JsErr where
  name : String
  message : String

/-- The model side of one `streamSingleTurn` call. -/
def ModelFn := List AiChatMessage → Except JsErr (List ContentBlock)

/-- The sandbox side of one `executeTool` call. -/
def ExecFn := String → ToolInput → ToolOutcome

/-- The data of one `tool_use` block, as extracted by the filter of the
loop on the `tool_use` block type, with its cast. -/
structure ToolUseData where
  id : String
  name : String
  input : ToolInput

/-- The `tool_use` blocks of an assistant turn, in received order. -/
def toolUses (blocks : List ContentBlock) : List ToolUseData :=
  blocks.filterMap (fun b =>
    match b with
    | ContentBlock.tool_use i n inp => some ⟨i, n, inp⟩
    | _ => none)

/-- The `tool_result` blocks the loop collects for the `tool_use`
blocks of one turn, in the same order. -/
def resultsFor (exec : ExecFn) (tus : List ToolUseData) : List ContentBlock :=
  tus.map (fun tu =>
    ContentBlock.tool_result tu.id (exec tu.name tu.input).output
      (some (exec tu.name tu.input).isError))

/-- The tool-executing / tool-result notification pairs for one turn. -/
def toolNotifs (cid : String) (exec : ExecFn) (tus : List ToolUseData) : List ChatNotif :=
  tus.flatMap (fun tu =>
    [ChatNotif.toolExecuting cid tu.id tu.name tu.input,
     ChatNotif.toolResult cid tu.id (exec tu.name tu.input).output
       (exec tu.name tu.input).isError])

/-- The assistant message appended for the blocks of one turn, with the
`updatedAt` bump. -/
def withAssistant (conv : AiConversation) (blocks : List ContentBlock) (now : Int) :
    AiConversation :=
  { conv with
      messages := conv.messages ++ [⟨Role.assistant, MsgContent.blocks blocks⟩],
      updatedAt := now }

/-- The synthetic user message of collected tool results, with the
`updatedAt` bump. -/
def withToolResults (conv : AiConversation) (results : List ContentBlock) (now : Int) :
    AiConversation :=
  { conv with
      messages := conv.messages ++ [⟨Role.user, MsgContent.blocks results⟩],
      updatedAt := now }

/-- Everything one loop run produces: the final working conversation,
the store after its saves, the notifications in emission order, the
trace of model invocations (request history and response), and the
thrown error the run was terminated by, if any. -/
structure LoopOut where
  conv : AiConversation
  store : Store
  notifs : List ChatNotif
  trace : List (List AiChatMessage × Except JsErr (List ContentBlock))
  thrown : Option JsErr

/-- The working conversation after one tool-using turn: the assistant
message with the blocks of the turn, then the synthetic user message with the
collected tool results. -/
def loopNextConv (exec : ExecFn) (now : Int) (conv : AiConversation)
    (blocks : List ContentBlock) : AiConversation :=
  withToolResults (withAssistant conv blocks now) (resultsFor exec (toolUses blocks)) now

/-- The store after the two saves of one tool-using turn. -/
def loopNextStore (exec : ExecFn) (now : Int) (conv : AiConversation)
    (blocks : List ContentBlock) (store : Store) : Store :=
  storeSave (storeSave store (withAssistant conv blocks now))
    (loopNextConv exec now conv blocks)

/-- The `for (turn = 0; turn < MAX_TURNS; turn++)` body of
`streamingChatLoop`, with the remaining turn budget as fuel. -/
def loopAux (model : ModelFn) (exec : ExecFn) (now : Int) (cid : String) :
    Nat → Nat → AiConversation → Store → LoopOut
  | 0, _, conv, store => ⟨conv, store, [ChatNotif.streamDone cid], [], none⟩
  | fuel + 1, turn, conv, store =>
    match model conv.messages with
    | Except.error e =>
        ⟨conv, store, [ChatNotif.streamStart cid turn],
         [(conv.messages, Except.error e)], some e⟩
    | Except.ok blocks =>
        let tus := toolUses blocks
        if tus.length = 0 then
          let conv1 := withAssistant conv blocks now
          ⟨conv1, storeSave store conv1,
           [ChatNotif.streamStart cid turn, ChatNotif.streamDone cid],
           [(conv.messages, Except.ok blocks)], none⟩
        else
          let rest := loopAux model exec now cid fuel (turn + 1)
            (loopNextConv exec now conv blocks) (loopNextStore exec now conv blocks store)
          ⟨rest.conv, rest.store,
           ChatNotif.streamStart cid turn :: (toolNotifs cid exec tus ++ rest.notifs),
           (conv.messages, Except.ok blocks) :: rest.trace,
           rest.thrown⟩

/-- `MAX_TURNS` from `streamingChatLoop`. -/
def MAX_TURNS : Nat := 20

/-- `streamingChatLoop(conv, conversationId, signal)`. -/
def streamingChatLoop (model : ModelFn) (exec : ExecFn) (now : Int) (cid : String)
    (conv : AiConversation) (store : Store) : LoopOut :=
  loopAux model exec now cid MAX_TURNS 0 conv store

/-- JavaScript `s.trim()`: strip leading and trailing whitespace
characters (modelled for the ASCII whitespace a chat message can
reasonably carry). -/
def jsIsWhitespace (c : Char) : Bool :=
  c == ' ' || c == '\t' || c == '\n' || c == '\r'

def jsTrim (s : String) : String :=
  ⟨((s.data.dropWhile jsIsWhitespace).reverse.dropWhile jsIsWhitespace).reverse⟩

/-- The first-user-turn title: trimmed text cut to 60 characters with an
ellipsis appended when longer. -/
def autoTitle (trimmed : String) : String :=
  trimmed.take 60 ++ (if trimmed.length > 60 then "..." else "")

/-- Count of user-role messages, the length of the messages filtered to
the user role in the source. -/
def countUserMsgs (msgs : List AiChatMessage) : Nat :=
  (msgs.filter (fun m => m.role == Role.user)).length

/-- The shared transcript preparation of both send handlers: append the
trimmed user message, bump `updatedAt`, auto-title when the title is
still `New conversation` and this is the only user message, and apply a
truthy model override. -/
def prepareSend (conv : AiConversation) (userMessage : String)
    (modelOverride : Option String) (now : Int) : AiConversation :=
  let trimmed := jsTrim userMessage
  let conv1 := { conv with
    messages := conv.messages ++ [⟨Role.user, MsgContent.str trimmed⟩],
    updatedAt := now }
  let conv2 :=
    if conv1.title = "New conversation" ∧ countUserMsgs conv1.messages = 1 then
      { conv1 with title := autoTitle trimmed }
    else conv1
  let mo := modelOverride.getD ""
  if mo = "" then conv2 else { conv2 with model := mo }

/-- The value an IPC handler returns: ok, or not-ok with an error string. -/
inductive IpcResult where
  | ok : IpcResult
  | err (error : String) : IpcResult
deriving DecidableEq

/-- Everything one `chat:ai-send-stream` invocation produces. -/
structure SendStreamOut where
  res : IpcResult
  store : Store
  notifs : List ChatNotif
  trace : List (List AiChatMessage × Except JsErr (List ContentBlock))

/-- The `chat:ai-send-stream` handler: precondition guards, transcript
preparation and persistence, the loop, and the catch that distinguishes
an abort from a generic failure. -/
def aiSendStream (model : ModelFn) (exec : ExecFn) (proxyRunning : Bool) (now : Int)
    (store : Store) (conversationId userMessage : String)
    (modelOverride : Option String) : SendStreamOut :=
  if jsTrim userMessage = "" then ⟨IpcResult.err "Empty message", store, [], []⟩
  else if proxyRunning = false then
    ⟨IpcResult.err "Buyer runtime is not running. Start it from Desktop Controls.",
     store, [], []⟩
  else
    match storeGet store conversationId with
    | none => ⟨IpcResult.err "Conversation not found", store, [], []⟩
    | some conv =>
      let conv2 := prepareSend conv userMessage modelOverride now
      let store1 := storeSave store conv2
      let n0 := [ChatNotif.userPersisted conversationId
        ⟨Role.user, MsgContent.str (jsTrim userMessage)⟩]
      let lr := streamingChatLoop model exec now conversationId conv2 store1
      match lr.thrown with
      | none => ⟨IpcResult.ok, lr.store, n0 ++ lr.notifs, lr.trace⟩
      | some e =>
        if e.name = "AbortError" then
          ⟨IpcResult.err "Aborted", lr.store,
           n0 ++ lr.notifs ++ [ChatNotif.streamError conversationId "Request aborted"],
           lr.trace⟩
        else
          ⟨IpcResult.err e.message, lr.store,
           n0 ++ lr.notifs ++ [ChatNotif.streamError conversationId e.message],
           lr.trace⟩

/-- The upstream response of the single fetch of the non-streaming handler. -/
inductive FetchOutcome where
  | httpError (status : Int) (body : String) : FetchOutcome
  | okJson (content : List JsonDocBlock) : FetchOutcome

/-- The fetch side of one `chat:ai-send` call. -/
def SendFetchFn := List AiChatMessage → Except JsErr FetchOutcome

/-- Everything one `chat:ai-send` invocation produces. -/
structure SendOut where
  res : IpcResult
  store : Store
  notifs : List ChatNotif

/-- The non-streaming `chat:ai-send` handler. -/
def aiSend (fetchFn : SendFetchFn) (proxyRunning : Bool) (now : Int)
    (store : Store) (conversationId userMessage : String)
    (modelOverride : Option String) : SendOut :=
  if jsTrim userMessage = "" then ⟨IpcResult.err "Empty message", store, []⟩
  else if proxyRunning = false then
    ⟨IpcResult.err "Buyer runtime is not running. Start it from Desktop Controls.",
     store, []⟩
  else
    match storeGet store conversationId with
    | none => ⟨IpcResult.err "Conversation not found", store, []⟩
    | some conv =>
      let conv2 := prepareSend conv userMessage modelOverride now
      let store1 := storeSave store conv2
      let n0 := [ChatNotif.userPersisted conversationId
        ⟨Role.user, MsgContent.str (jsTrim userMessage)⟩]
      match fetchFn conv2.messages with
      | Except.error e =>
        if e.name = "AbortError" then
          ⟨IpcResult.err "Aborted", store1,
           n0 ++ [ChatNotif.aiError conversationId "Request aborted"]⟩
        else
          ⟨IpcResult.err e.message, store1,
           n0 ++ [ChatNotif.aiError conversationId e.message]⟩
      | Except.ok (FetchOutcome.httpError status body) =>
        let error := "Proxy returned " ++ toString status ++ ": " ++ body.take 200
        ⟨IpcResult.err error, store1, n0 ++ [ChatNotif.aiError conversationId error]⟩
      | Except.ok (FetchOutcome.okJson content) =>
        let assistantText :=
          concatStrings ((content.filter (fun b => b.type == "text")).map
            (fun b => b.text.getD ""))
        if assistantText.length > 0 then
          let conv3 := { conv2 with
            messages := conv2.messages ++ [⟨Role.assistant, MsgContent.str assistantText⟩],
            updatedAt := now }
          ⟨IpcResult.ok, storeSave store1 conv3,
           n0 ++ [ChatNotif.aiDone conversationId
             ⟨Role.assistant, MsgContent.str assistantText⟩]⟩
        else ⟨IpcResult.ok, store1, n0⟩

/-- The `tool_use_id` of a `tool_result` block (empty for other blocks). -/
def toolResultUseId : ContentBlock → String
  | ContentBlock.tool_result tid _ _ => tid
  | _ => ""

theorem decodeBlock_encodeBlock (b : ContentBlock) :
    decodeBlock (encodeBlock b) = some b := by
  cases b with
  | text t => rfl
  | thinking t => rfl
  | tool_use i n inp => rfl
  | tool_result tid c ie => cases ie <;> rfl

theorem decodeBlocks_map (bs : List ContentBlock) :
    decodeBlocks (bs.map encodeBlock) = some bs := by
  induction bs with
  | nil => rfl
  | cons b rest ih =>
      simp [List.map, decodeBlocks, decodeBlock_encodeBlock, ih]

theorem decodeContent_encodeContent (c : MsgContent) :
    decodeContent (encodeContent c) = some c := by
  cases c with
  | str s => rfl
  | blocks bs => simp [encodeContent, decodeContent, decodeBlocks_map]

theorem decodeMsg_encodeMsg (m : AiChatMessage) :
    decodeMsg (encodeMsg m) = some m := by
  cases m with
  | mk role content =>
      cases role <;>
        simp [encodeMsg, decodeMsg, jlookup, encodeRole, decodeRole,
          decodeContent_encodeContent]

theorem decodeMsgs_map (ms : List AiChatMessage) :
    decodeMsgs (ms.map encodeMsg) = some ms := by
  induction ms with
  | nil => rfl
  | cons m rest ih => simp [List.map, decodeMsgs, decodeMsg_encodeMsg, ih]

theorem decodeConv_encodeConv (c : AiConversation) :
    decodeConv (encodeConv c) = some c := by
  cases c with
  | mk i t m msgs ca ua =>
      simp [encodeConv, decodeConv, jlookup, asStr, asInt, decodeMsgs_map]

theorem storeFind_storeSet (s : Store) (k : String) (v : Json) :
    storeFind (storeSet s k v) k = some v := by
  induction s with
  | nil => simp [storeSet, storeFind]
  | cons p rest ih =>
      by_cases h : p.1 = k
      · simp [storeSet, h, storeFind]
      · simpa [storeSet, h, storeFind, List.find?] using ih

/-- C9: saving a conversation and reading it back by id returns the same
value, nested tool_use/tool_result blocks included. -/
theorem chatStorage_save_get_roundtrip (s : Store) (c : AiConversation) :
    storeGet (storeSave s c) c.id = some c := by
  simp [storeGet, storeSave, storeFind_storeSet, decodeConv_encodeConv]

theorem foldl_textDeltas (parse : String → Option ToolInput) (cid : String)
    (ds : List String) : ∀ st : SseState,
    ((ds.map (fun d => SseEvent.content_block_delta
        (some (DeltaPayload.textDelta d)))).foldl (sseStep parse cid) st).blocks
        = st.blocks ∧
    ((ds.map (fun d => SseEvent.content_block_delta
        (some (DeltaPayload.textDelta d)))).foldl (sseStep parse cid) st).currentBlockType
        = st.currentBlockType ∧
    ((ds.map (fun d => SseEvent.content_block_delta
        (some (DeltaPayload.textDelta d)))).foldl (sseStep parse cid) st).textAccum
        = st.textAccum ++ concatStrings ds := by
  induction ds with
  | nil => intro st; exact ⟨rfl, rfl, by simp [concatStrings]⟩
  | cons d rest ih =>
      intro st
      have h := ih (sseStep parse cid st
        (SseEvent.content_block_delta (some (DeltaPayload.textDelta d))))
      refine ⟨?_, ?_, ?_⟩
      · simpa [sseStep] using h.1
      · simpa [sseStep] using h.2.1
      · simpa [sseStep, concatStrings, String.append_assoc] using h.2.2

theorem sseStep_stop_text (parse : String → Option ToolInput) (cid : String)
    (st : SseState) (h : st.currentBlockType = "text") :
    (sseStep parse cid st SseEvent.content_block_stop).blocks
      = st.blocks ++ [ContentBlock.text st.textAccum] := by
  simp [sseStep, h]

theorem sseStep_stop_tool (parse : String → Option ToolInput) (cid : String)
    (st : SseState) (h : st.currentBlockType = "tool_use") :
    (sseStep parse cid st SseEvent.content_block_stop).blocks
      = st.blocks ++ [ContentBlock.tool_use st.currentToolId st.currentToolName
          (parseToolInput parse st.toolJsonAccum)] := by
  simp [sseStep, h]

/-- C3: one text block opened with initial text `init`, split across any
number of `text_delta` fragments and closed, decodes to a single text
block whose text is `init` followed by the fragments concatenated in
arrival order. -/
theorem sse_text_block_concatenates_deltas
    (parse : String → Option ToolInput) (cid : String) (idx : Int)
    (init : String) (ds : List String) :
    (decodeSse parse cid
      ([SseEvent.content_block_start idx (some ⟨"text", some init, none, none⟩)] ++
       ds.map (fun d => SseEvent.content_block_delta (some (DeltaPayload.textDelta d))) ++
       [SseEvent.content_block_stop])).blocks
      = [ContentBlock.text (init ++ concatStrings ds)] := by
  unfold decodeSse
  rw [List.foldl_append, List.foldl_append]
  have hstart :
      (([SseEvent.content_block_start idx (some ⟨"text", some init, none, none⟩)]).foldl
        (sseStep parse cid) initSseState) =
      (⟨[], [ChatNotif.blockStart cid idx "text" none none], idx, "text", init,
        "", "", ""⟩ : SseState) := by
    simp [sseStep, initSseState]
  rw [hstart]
  have h := foldl_textDeltas parse cid ds
    (⟨[], [ChatNotif.blockStart cid idx "text" none none], idx, "text", init,
      "", "", ""⟩ : SseState)
  simp only [List.foldl_cons, List.foldl_nil]
  rw [sseStep_stop_text parse cid _ h.2.1, h.1, h.2.2]
  rfl

theorem foldl_inputJsonDeltas (parse : String → Option ToolInput) (cid : String)
    (ds : List String) : ∀ st : SseState,
    ((ds.map (fun d => SseEvent.content_block_delta
        (some (DeltaPayload.inputJsonDelta d)))).foldl (sseStep parse cid) st).blocks
        = st.blocks ∧
    ((ds.map (fun d => SseEvent.content_block_delta
        (some (DeltaPayload.inputJsonDelta d)))).foldl (sseStep parse cid) st).currentBlockType
        = st.currentBlockType ∧
    ((ds.map (fun d => SseEvent.content_block_delta
        (some (DeltaPayload.inputJsonDelta d)))).foldl (sseStep parse cid) st).currentToolId
        = st.currentToolId ∧
    ((ds.map (fun d => SseEvent.content_block_delta
        (some (DeltaPayload.inputJsonDelta d)))).foldl (sseStep parse cid) st).currentToolName
        = st.currentToolName ∧
    ((ds.map (fun d => SseEvent.content_block_delta
        (some (DeltaPayload.inputJsonDelta d)))).foldl (sseStep parse cid) st).toolJsonAccum
        = st.toolJsonAccum ++ concatStrings ds := by
  induction ds with
  | nil => intro st; exact ⟨rfl, rfl, rfl, rfl, by simp [concatStrings]⟩
  | cons d rest ih =>
      intro st
      have h := ih (sseStep parse cid st
        (SseEvent.content_block_delta (some (DeltaPayload.inputJsonDelta d))))
      refine ⟨?_, ?_, ?_, ?_, ?_⟩
      · simpa [sseStep] using h.1
      · simpa [sseStep] using h.2.1
      · simpa [sseStep] using h.2.2.1
      · simpa [sseStep] using h.2.2.2.1
      · simpa [sseStep, concatStrings, String.append_assoc] using h.2.2.2.2

/-- C4: a tool_use block whose accumulated `input_json_delta` fragments
do not parse as JSON is still finalized at `content_block_stop` with the
empty input map, and an empty accumulator (parsed as the literal empty
object) likewise yields the empty map; the decoder is a total function
and cannot throw. -/
theorem sse_invalid_tool_json_yields_empty_input
    (parse : String → Option ToolInput) (cid : String) (idx : Int)
    (tid tname : String) (frags : List String)
    (hinv : concatStrings frags ≠ "" → parse (concatStrings frags) = none)
    (hemp : parse "\x7b\x7d" = none ∨ parse "\x7b\x7d" = some []) :
    (decodeSse parse cid
      ([SseEvent.content_block_start idx (some ⟨"tool_use", none, some tid, some tname⟩)] ++
       frags.map (fun d => SseEvent.content_block_delta (some (DeltaPayload.inputJsonDelta d))) ++
       [SseEvent.content_block_stop])).blocks
      = [ContentBlock.tool_use tid tname []] := by
  unfold decodeSse
  rw [List.foldl_append, List.foldl_append]
  have hstart :
      (([SseEvent.content_block_start idx (some ⟨"tool_use", none, some tid, some tname⟩)]).foldl
        (sseStep parse cid) initSseState) =
      (⟨[], [ChatNotif.blockStart cid idx "tool_use" (some tid) (some tname)], idx,
        "tool_use", "", "", tid, tname⟩ : SseState) := by
    simp [sseStep, initSseState]
  rw [hstart]
  have h := foldl_inputJsonDeltas parse cid frags
    (⟨[], [ChatNotif.blockStart cid idx "tool_use" (some tid) (some tname)], idx,
      "tool_use", "", "", tid, tname⟩ : SseState)
  simp only [List.foldl_cons, List.foldl_nil]
  rw [sseStep_stop_tool parse cid _ h.2.1, h.1, h.2.2.1, h.2.2.2.1, h.2.2.2.2]
  have haccum : (("" : String) ++ concatStrings frags) = concatStrings frags :=
    String.empty_append _
  rw [haccum]
  by_cases hz : concatStrings frags = ""
  · rcases hemp with hp | hp <;> simp [parseToolInput, hz, hp]
  · simp [parseToolInput, hz, hinv hz]

/-- Witness for C4 at a concrete junk accumulator. -/
theorem sse_invalid_tool_json_yields_empty_input_witness :
    (decodeSse (fun _ => none) "c"
      ([SseEvent.content_block_start 0 (some ⟨"tool_use", none, some "tu1", some "bash"⟩)] ++
       ["not ", "json"].map (fun d =>
         SseEvent.content_block_delta (some (DeltaPayload.inputJsonDelta d))) ++
       [SseEvent.content_block_stop])).blocks
      = [ContentBlock.tool_use "tu1" "bash" []] :=
  sse_invalid_tool_json_yields_empty_input (fun _ => none) "c" 0 "tu1" "bash"
    ["not ", "json"] (fun _ => rfl) (Or.inl rfl)

theorem fallback_foldl (cid : String) : ∀ (content : List JsonDocBlock)
    (acc : List ContentBlock × List ChatNotif),
    content.foldl
      (fun acc b =>
        if b.type = "text" then
          (acc.1 ++ [ContentBlock.text (b.text.getD "")],
           acc.2 ++ [ChatNotif.streamDelta cid 0 "text" (b.text.getD "")])
        else if b.type = "tool_use" then
          (acc.1 ++ [ContentBlock.tool_use (b.id.getD "") (b.name.getD "") (b.input.getD [])],
           acc.2)
        else acc) acc
    = (acc.1 ++ content.filterMap fallbackBlockOf,
       acc.2 ++ (content.filter (fun b => b.type == "text")).map
         (fun b => ChatNotif.streamDelta cid 0 "text" (b.text.getD ""))) := by
  intro content
  induction content with
  | nil => intro acc; simp
  | cons b rest ih =>
      intro acc
      by_cases ht : b.type = "text"
      · simp [List.foldl_cons, ht, ih, fallbackBlockOf, List.filterMap_cons,
          List.filter_cons, beq_iff_eq]
      · by_cases hu : b.type = "tool_use"
        · simp [List.foldl_cons, ht, hu, ih, fallbackBlockOf, List.filterMap_cons,
            List.filter_cons, beq_iff_eq]
        · simp [List.foldl_cons, ht, hu, ih, fallbackBlockOf, List.filterMap_cons,
            List.filter_cons, beq_iff_eq]

theorem sse_events_completed_block (parse : String → Option ToolInput)
    (ser : JsonDocBlock → String) (cid : String) (b : JsonDocBlock) (st : SseState)
    (hb : b.type = "text" ∨ b.type = "tool_use")
    (hser : b.type = "tool_use" → ser b ≠ "" ∧ parse (ser b) = some (b.input.getD [])) :
    ((sseEventsOfDocBlock ser b).foldl (sseStep parse cid) st).blocks
      = st.blocks ++ (fallbackBlockOf b).toList := by
  rcases hb with ht | hu
  · simp [sseEventsOfDocBlock, ht, sseStep, fallbackBlockOf]
  · have hs := hser hu
    by_cases htx : b.type = "text"
    · rw [htx] at hu; exact absurd hu (by decide)
    · simp only [sseEventsOfDocBlock, htx, hu, if_true, if_false,
        List.foldl_cons, List.foldl_nil]
      simp [sseStep, parseToolInput, hs.1, hs.2, fallbackBlockOf, htx, hu]

theorem sse_events_doc (parse : String → Option ToolInput)
    (ser : JsonDocBlock → String) (cid : String) : ∀ (content : List JsonDocBlock)
    (st : SseState),
    (∀ b ∈ content, b.type = "text" ∨ b.type = "tool_use") →
    (∀ b ∈ content, b.type = "tool_use" →
        ser b ≠ "" ∧ parse (ser b) = some (b.input.getD [])) →
    ((content.flatMap (sseEventsOfDocBlock ser)).foldl (sseStep parse cid) st).blocks
      = st.blocks ++ content.filterMap fallbackBlockOf := by
  intro content
  induction content with
  | nil => intro st _ _; simp
  | cons b rest ih =>
      intro st hb hser
      have hbb := hb b (List.mem_cons_self b rest)
      have hsb := hser b (List.mem_cons_self b rest)
      rw [List.flatMap_cons, List.foldl_append]
      have hrest := ih ((sseEventsOfDocBlock ser b).foldl (sseStep parse cid) st)
        (fun x hx => hb x (List.mem_cons_of_mem b hx))
        (fun x hx => hser x (List.mem_cons_of_mem b hx))
      rw [hrest, sse_events_completed_block parse ser cid b st hbb hsb,
        List.filterMap_cons]
      rcases hbb with ht | hu
      · simp [fallbackBlockOf, ht]
      · by_cases htx : b.type = "text"
        · simp [fallbackBlockOf, htx]
        · simp [fallbackBlockOf, htx, hu]

/-- C8 counterexample: a plain-JSON document consisting of one thinking
block yields an empty block list on the fallback path, while the SSE
path on the equivalent completed-block events yields the thinking
block — so the fallback does not reproduce thinking blocks. -/
theorem fallback_drops_thinking_blocks :
    (streamSingleTurnFallback "c" [⟨"thinking", none, some "deep", none, none, none⟩]).1
      = [] ∧
    (decodeSse (fun _ => none) "c"
      (sseEventsOfDocBlock (fun _ => "x")
        ⟨"thinking", none, some "deep", none, none, none⟩)).blocks
      = [ContentBlock.thinking "deep"] ∧
    (streamSingleTurnFallback "c" [⟨"thinking", none, some "deep", none, none, none⟩]).1
      ≠ (decodeSse (fun _ => none) "c"
          (sseEventsOfDocBlock (fun _ => "x")
            ⟨"thinking", none, some "deep", none, none, none⟩)).blocks := by
  refine ⟨rfl, rfl, ?_⟩
  intro h
  rw [show (streamSingleTurnFallback "c"
      [⟨"thinking", none, some "deep", none, none, none⟩]).1 = [] from rfl,
    show (decodeSse (fun _ => none) "c"
      (sseEventsOfDocBlock (fun _ => "x")
        ⟨"thinking", none, some "deep", none, none, none⟩)).blocks
      = [ContentBlock.thinking "deep"] from rfl] at h
  exact List.noConfusion h

/-- C8 amended: for a document whose content array holds only `text` and
`tool_use` blocks, the fallback path returns the same final block list
as the SSE path run on the equivalent completed-block events (given a
serialization of each tool input that parses back to it), emitting
exactly one delta notification per text block; thinking blocks are not
reproduced by the fallback (see the counterexample). -/
theorem fallback_matches_sse_for_text_and_tool_blocks
    (parse : String → Option ToolInput) (ser : JsonDocBlock → String) (cid : String)
    (content : List JsonDocBlock)
    (hb : ∀ b ∈ content, b.type = "text" ∨ b.type = "tool_use")
    (hser : ∀ b ∈ content, b.type = "tool_use" →
        ser b ≠ "" ∧ parse (ser b) = some (b.input.getD [])) :
    (streamSingleTurnFallback cid content).1
      = (decodeSse parse cid (content.flatMap (sseEventsOfDocBlock ser))).blocks ∧
    (streamSingleTurnFallback cid content).2
      = (content.filter (fun b => b.type == "text")).map
          (fun b => ChatNotif.streamDelta cid 0 "text" (b.text.getD "")) := by
  unfold streamSingleTurnFallback decodeSse
  rw [fallback_foldl cid content ([], []),
    sse_events_doc parse ser cid content initSseState hb hser]
  exact ⟨by simp [initSseState], by simp⟩

/-- Witness for the amended C8 at a concrete two-block document. -/
theorem fallback_matches_sse_witness :
    (streamSingleTurnFallback "c"
        [⟨"text", some "hi", none, none, none, none⟩,
         ⟨"tool_use", none, none, some "tu1", some "bash",
          some [("command", Json.str "ls")]⟩]).1
      = (decodeSse (fun s => if s = "SER" then some [("command", Json.str "ls")] else none)
          "c"
          ([⟨"text", some "hi", none, none, none, none⟩,
            (⟨"tool_use", none, none, some "tu1", some "bash",
             some [("command", Json.str "ls")]⟩ : JsonDocBlock)].flatMap
            (sseEventsOfDocBlock (fun _ => "SER")))).blocks ∧
    (streamSingleTurnFallback "c"
        [⟨"text", some "hi", none, none, none, none⟩,
         ⟨"tool_use", none, none, some "tu1", some "bash",
          some [("command", Json.str "ls")]⟩]).2
      = ([(⟨"text", some "hi", none, none, none, none⟩ : JsonDocBlock),
          ⟨"tool_use", none, none, some "tu1", some "bash",
           some [("command", Json.str "ls")]⟩].filter
            (fun b => b.type == "text")).map
          (fun b => ChatNotif.streamDelta "c" 0 "text" (b.text.getD "")) :=
  fallback_matches_sse_for_text_and_tool_blocks
    (fun s => if s = "SER" then some [("command", Json.str "ls")] else none)
    (fun _ => "SER") "c"
    [⟨"text", some "hi", none, none, none, none⟩,
     ⟨"tool_use", none, none, some "tu1", some "bash",
      some [("command", Json.str "ls")]⟩]
    (by intro b hb
        simp at hb
        rcases hb with h | h
        · rw [h]; exact Or.inl rfl
        · rw [h]; exact Or.inr rfl)
    (by intro b hb hty
        simp at hb
        rcases hb with h | h
        · rw [h] at hty; exact absurd hty (by decide)
        · rw [h]; exact ⟨by decide, by simp⟩)

/-- C5: `executeTool` always returns an outcome record: an unrecognized
tool name yields the unknown-tool error outcome, any failure thrown
inside a tool case is captured as an error outcome with the failure
message, and a normally returned outcome is passed through unchanged
(the function is total, so it cannot throw). -/
theorem executeTool_never_throws (env : ToolEnv) (name : String) (input : ToolInput) :
    (name ∉ (["bash", "read_file", "write_file", "list_directory",
              "search_files", "grep"] : List String) →
      executeTool env name input = ⟨"Unknown tool: " ++ name, true⟩) ∧
    (∀ e, executeToolBody env name input = Except.error e →
      executeTool env name input = ⟨e, true⟩) ∧
    (∀ r, executeToolBody env name input = Except.ok r →
      executeTool env name input = r) := by
  refine ⟨?_, ?_, ?_⟩
  · intro h
    simp only [List.mem_cons, List.mem_singleton, not_or] at h
    obtain ⟨h1, h2, h3, h4, h5, h6, -⟩ := h
    simp [executeTool, executeToolBody, h1, h2, h3, h4, h5, h6]
  · intro e he
    simp [executeTool, he]
  · intro r hr
    simp [executeTool, hr]

/-- Witness for C5: an unknown tool name, and a tool case whose awaited
filesystem read rejects. -/
theorem executeTool_never_throws_witness :
    executeTool
        ⟨fun _ _ => Except.error "boom", fun _ => Except.error "boom",
         fun _ => Except.error "boom", fun _ _ => Except.error "boom",
         fun _ => Except.error "boom", fun _ _ => Except.error "boom",
         fun _ _ _ => Except.error ⟨none, "boom"⟩⟩
        "frobnicate" [] = ⟨"Unknown tool: " ++ "frobnicate", true⟩ ∧
    executeTool
        ⟨fun _ _ => Except.error "boom", fun _ => Except.error "boom",
         fun _ => Except.error "boom", fun _ _ => Except.error "boom",
         fun _ => Except.error "boom", fun _ _ => Except.error "boom",
         fun _ _ _ => Except.error ⟨none, "boom"⟩⟩
        "read_file" [("path", Json.str "/x")] = ⟨"boom", true⟩ :=
  ⟨(executeTool_never_throws _ "frobnicate" []).1 (by decide),
   (executeTool_never_throws _ "read_file" [("path", Json.str "/x")]).2.1 "boom"
     (by simp [executeToolBody, readFileToolCase, inputGetString, inputGet, jsToString])⟩

theorem countUserMsgs_append_user (msgs : List AiChatMessage) (c : MsgContent) :
    countUserMsgs (msgs ++ [⟨Role.user, c⟩]) = countUserMsgs msgs + 1 := by
  simp [countUserMsgs, List.filter_append]

/-- C7: sending into a conversation whose title is still the unset
`New conversation` placeholder and which has no prior user turns derives
the title from the trimmed message, truncated to 60 characters with an
ellipsis appended when longer; a title already set, or a conversation
with prior user turns, is left unchanged. -/
theorem first_user_turn_sets_title (conv : AiConversation) (userMessage : String)
    (modelOverride : Option String) (now : Int) :
    (conv.title = "New conversation" → countUserMsgs conv.messages = 0 →
      (prepareSend conv userMessage modelOverride now).title
        = (jsTrim userMessage).take 60 ++
          (if (jsTrim userMessage).length > 60 then "..." else "")) ∧
    (conv.title ≠ "New conversation" →
      (prepareSend conv userMessage modelOverride now).title = conv.title) ∧
    (countUserMsgs conv.messages ≠ 0 →
      (prepareSend conv userMessage modelOverride now).title = conv.title) := by
  refine ⟨?_, ?_, ?_⟩
  · intro ht hc
    cases modelOverride with
    | none => simp [prepareSend, countUserMsgs_append_user, hc, ht, autoTitle]
    | some mo =>
        by_cases hmo : mo = "" <;>
          simp [prepareSend, countUserMsgs_append_user, hc, ht, autoTitle, hmo]
  · intro ht
    cases modelOverride with
    | none => simp [prepareSend, ht]
    | some mo =>
        by_cases hmo : mo = "" <;> simp [prepareSend, ht, hmo]
  · intro hc
    have hne : ¬(countUserMsgs conv.messages + 1 = 1) := by omega
    cases modelOverride with
    | none => simp [prepareSend, countUserMsgs_append_user, hne]
    | some mo =>
        by_cases hmo : mo = "" <;>
          simp [prepareSend, countUserMsgs_append_user, hne, hmo]

/-- Witness for C7: a fresh conversation and a 70-character message. -/
theorem first_user_turn_sets_title_witness :
    (prepareSend ⟨"c1", "New conversation", "m", [], 0, 0⟩
        "aaaaaaaaaaaaaaaaaaaaaaaaaaaaaaaaaaaaaaaaaaaaaaaaaaaaaaaaaaaaaaaaaaaaaa"
        none 5).title
      = (jsTrim "aaaaaaaaaaaaaaaaaaaaaaaaaaaaaaaaaaaaaaaaaaaaaaaaaaaaaaaaaaaaaaaaaaaaaa").take 60 ++
        (if (jsTrim "aaaaaaaaaaaaaaaaaaaaaaaaaaaaaaaaaaaaaaaaaaaaaaaaaaaaaaaaaaaaaaaaaaaaaa").length > 60 then "..." else "") :=
  (first_user_turn_sets_title ⟨"c1", "New conversation", "m", [], 0, 0⟩
    "aaaaaaaaaaaaaaaaaaaaaaaaaaaaaaaaaaaaaaaaaaaaaaaaaaaaaaaaaaaaaaaaaaaaaa"
    none 5).1 rfl rfl

/-- C10: a message that is empty or whitespace-only makes both send
handlers return the `Empty message` error before touching anything: the
store is unchanged (nothing appended, no title or `updatedAt` bump,
nothing persisted), no notification is emitted, and no model call is
made. -/
theorem empty_message_rejected_atomically
    (model : ModelFn) (exec : ExecFn) (fetchFn : SendFetchFn) (proxyRunning : Bool)
    (now : Int) (store : Store) (cid userMessage : String) (mo : Option String)
    (h : jsTrim userMessage = "") :
    aiSendStream model exec proxyRunning now store cid userMessage mo
      = ⟨IpcResult.err "Empty message", store, [], []⟩ ∧
    aiSend fetchFn proxyRunning now store cid userMessage mo
      = ⟨IpcResult.err "Empty message", store, []⟩ := by
  exact ⟨by simp [aiSendStream, h], by simp [aiSend, h]⟩

/-- Witness for C10 at a whitespace-only message. -/
theorem empty_message_rejected_atomically_witness :
    aiSendStream (fun _ => Except.error ⟨"e", "e"⟩) (fun _ _ => ⟨"", false⟩) true 0
        [("c1", Json.str "junk")] "c1" "   " none
      = ⟨IpcResult.err "Empty message", [("c1", Json.str "junk")], [], []⟩ ∧
    aiSend (fun _ => Except.error ⟨"e", "e"⟩) true 0
        [("c1", Json.str "junk")] "c1" "   " none
      = ⟨IpcResult.err "Empty message", [("c1", Json.str "junk")], []⟩ :=
  empty_message_rejected_atomically (fun _ => Except.error ⟨"e", "e"⟩)
    (fun _ _ => ⟨"", false⟩) (fun _ => Except.error ⟨"e", "e"⟩) true 0
    [("c1", Json.str "junk")] "c1" "   " none (by decide)


theorem loopAux_zero (model : ModelFn) (exec : ExecFn) (now : Int) (cid : String)
    (turn : Nat) (conv : AiConversation) (store : Store) :
    loopAux model exec now cid 0 turn conv store
      = ⟨conv, store, [ChatNotif.streamDone cid], [], none⟩ := rfl

theorem loopAux_err (model : ModelFn) (exec : ExecFn) (now : Int) (cid : String)
    (fuel turn : Nat) (conv : AiConversation) (store : Store) (e : JsErr)
    (hm : model conv.messages = Except.error e) :
    loopAux model exec now cid (fuel + 1) turn conv store
      = ⟨conv, store, [ChatNotif.streamStart cid turn],
         [(conv.messages, Except.error e)], some e⟩ := by
  simp [loopAux, hm]

theorem loopAux_done (model : ModelFn) (exec : ExecFn) (now : Int) (cid : String)
    (fuel turn : Nat) (conv : AiConversation) (store : Store)
    (blocks : List ContentBlock)
    (hm : model conv.messages = Except.ok blocks)
    (hz : (toolUses blocks).length = 0) :
    loopAux model exec now cid (fuel + 1) turn conv store
      = ⟨withAssistant conv blocks now, storeSave store (withAssistant conv blocks now),
         [ChatNotif.streamStart cid turn, ChatNotif.streamDone cid],
         [(conv.messages, Except.ok blocks)], none⟩ := by
  simp [loopAux, hm, hz]

theorem loopAux_tools (model : ModelFn) (exec : ExecFn) (now : Int) (cid : String)
    (fuel turn : Nat) (conv : AiConversation) (store : Store)
    (blocks : List ContentBlock)
    (hm : model conv.messages = Except.ok blocks)
    (hz : (toolUses blocks).length ≠ 0) :
    loopAux model exec now cid (fuel + 1) turn conv store
      = ⟨(loopAux model exec now cid fuel (turn + 1)
            (loopNextConv exec now conv blocks)
            (loopNextStore exec now conv blocks store)).conv,
         (loopAux model exec now cid fuel (turn + 1)
            (loopNextConv exec now conv blocks)
            (loopNextStore exec now conv blocks store)).store,
         ChatNotif.streamStart cid turn ::
           (toolNotifs cid exec (toolUses blocks) ++
            (loopAux model exec now cid fuel (turn + 1)
              (loopNextConv exec now conv blocks)
              (loopNextStore exec now conv blocks store)).notifs),
         (conv.messages, Except.ok blocks) ::
           (loopAux model exec now cid fuel (turn + 1)
             (loopNextConv exec now conv blocks)
             (loopNextStore exec now conv blocks store)).trace,
         (loopAux model exec now cid fuel (turn + 1)
           (loopNextConv exec now conv blocks)
           (loopNextStore exec now conv blocks store)).thrown⟩ := by
  simp [loopAux, hm, hz]

theorem loopNextConv_messages (exec : ExecFn) (now : Int) (conv : AiConversation)
    (blocks : List ContentBlock) :
    (loopNextConv exec now conv blocks).messages
      = conv.messages ++
        [⟨Role.assistant, MsgContent.blocks blocks⟩,
         ⟨Role.user, MsgContent.blocks (resultsFor exec (toolUses blocks))⟩] := by
  simp [loopNextConv, withAssistant, withToolResults]

theorem loopAux_messages_extend (model : ModelFn) (exec : ExecFn) (now : Int)
    (cid : String) : ∀ (fuel turn : Nat) (conv : AiConversation) (store : Store),
    ∃ t, (loopAux model exec now cid fuel turn conv store).conv.messages
      = conv.messages ++ t := by
  intro fuel
  induction fuel with
  | zero => intro turn conv store; exact ⟨[], by simp [loopAux_zero]⟩
  | succ fuel ih =>
      intro turn conv store
      cases hm : model conv.messages with
      | error e => exact ⟨[], by simp [loopAux_err model exec now cid fuel turn conv store e hm]⟩
      | ok blocks =>
          by_cases hz : (toolUses blocks).length = 0
          · exact ⟨[⟨Role.assistant, MsgContent.blocks blocks⟩],
              by simp [loopAux_done model exec now cid fuel turn conv store blocks hm hz,
                withAssistant]⟩
          · obtain ⟨t, ht⟩ := ih (turn + 1) (loopNextConv exec now conv blocks)
              (loopNextStore exec now conv blocks store)
            refine ⟨[⟨Role.assistant, MsgContent.blocks blocks⟩,
              ⟨Role.user, MsgContent.blocks (resultsFor exec (toolUses blocks))⟩] ++ t, ?_⟩
            rw [loopAux_tools model exec now cid fuel turn conv store blocks hm hz]
            rw [show (⟨(loopAux model exec now cid fuel (turn + 1)
                (loopNextConv exec now conv blocks)
                (loopNextStore exec now conv blocks store)).conv, _, _, _, _⟩ : LoopOut).conv
              = (loopAux model exec now cid fuel (turn + 1)
                (loopNextConv exec now conv blocks)
                (loopNextStore exec now conv blocks store)).conv from rfl]
            rw [ht, loopNextConv_messages]
            simp

theorem loopAux_trace_length_le (model : ModelFn) (exec : ExecFn) (now : Int)
    (cid : String) : ∀ (fuel turn : Nat) (conv : AiConversation) (store : Store),
    (loopAux model exec now cid fuel turn conv store).trace.length ≤ fuel := by
  intro fuel
  induction fuel with
  | zero => intro turn conv store; simp [loopAux_zero]
  | succ fuel ih =>
      intro turn conv store
      cases hm : model conv.messages with
      | error e => simp [loopAux_err model exec now cid fuel turn conv store e hm]
      | ok blocks =>
          by_cases hz : (toolUses blocks).length = 0
          · simp [loopAux_done model exec now cid fuel turn conv store blocks hm hz]
          · rw [loopAux_tools model exec now cid fuel turn conv store blocks hm hz]
            have := ih (turn + 1) (loopNextConv exec now conv blocks)
              (loopNextStore exec now conv blocks store)
            simp only [List.length_cons]
            omega

theorem loopAux_trace_error_is_last (model : ModelFn) (exec : ExecFn) (now : Int)
    (cid : String) : ∀ (fuel turn : Nat) (conv : AiConversation) (store : Store)
    (pre : List (List AiChatMessage × Except JsErr (List ContentBlock)))
    (h : List AiChatMessage) (e : JsErr)
    (post : List (List AiChatMessage × Except JsErr (List ContentBlock))),
    (loopAux model exec now cid fuel turn conv store).trace
      = pre ++ (h, Except.error e) :: post → post = [] := by
  intro fuel
  induction fuel with
  | zero =>
      intro turn conv store pre h e post heq
      rw [loopAux_zero] at heq
      simp at heq
  | succ fuel ih =>
      intro turn conv store pre h e post heq
      cases hm : model conv.messages with
      | error e' =>
          rw [loopAux_err model exec now cid fuel turn conv store e' hm] at heq
          cases pre with
          | nil =>
              simp only [List.nil_append, List.cons.injEq] at heq
              exact heq.2.symm
          | cons p pre' =>
              simp only [List.cons_append, List.cons.injEq] at heq
              exact absurd heq.2.symm
                (List.append_ne_nil_of_right_ne_nil pre' (by simp))
      | ok blocks =>
          by_cases hz : (toolUses blocks).length = 0
          · rw [loopAux_done model exec now cid fuel turn conv store blocks hm hz] at heq
            cases pre with
            | nil =>
                simp only [List.nil_append, List.cons.injEq] at heq
                exact absurd heq.1 (by simp)
            | cons p pre' =>
                simp only [List.cons_append, List.cons.injEq] at heq
                exact absurd heq.2.symm
                  (List.append_ne_nil_of_right_ne_nil pre' (by simp))
          · rw [loopAux_tools model exec now cid fuel turn conv store blocks hm hz] at heq
            cases pre with
            | nil =>
                simp only [List.nil_append, List.cons.injEq] at heq
                exact absurd heq.1 (by simp)
            | cons p pre' =>
                simp only [List.cons_append, List.cons.injEq] at heq
                exact ih (turn + 1) _ _ pre' h e post heq.2

theorem loopAux_tools_conv (model : ModelFn) (exec : ExecFn) (now : Int) (cid : String)
    (fuel turn : Nat) (conv : AiConversation) (store : Store)
    (blocks : List ContentBlock)
    (hm : model conv.messages = Except.ok blocks)
    (hz : (toolUses blocks).length ≠ 0) :
    (loopAux model exec now cid (fuel + 1) turn conv store).conv
      = (loopAux model exec now cid fuel (turn + 1)
          (loopNextConv exec now conv blocks)
          (loopNextStore exec now conv blocks store)).conv := by
  rw [loopAux_tools model exec now cid fuel turn conv store blocks hm hz]

theorem loopAux_tool_results_follow (model : ModelFn) (exec : ExecFn) (now : Int)
    (cid : String) : ∀ (fuel turn : Nat) (conv : AiConversation) (store : Store)
    (i : Nat) (blocks : List ContentBlock),
    conv.messages.length ≤ i →
    ((loopAux model exec now cid fuel turn conv store).conv.messages)[i]?
      = some ⟨Role.assistant, MsgContent.blocks blocks⟩ →
    toolUses blocks ≠ [] →
    ((loopAux model exec now cid fuel turn conv store).conv.messages)[i + 1]?
      = some ⟨Role.user, MsgContent.blocks (resultsFor exec (toolUses blocks))⟩ := by
  intro fuel
  induction fuel with
  | zero =>
      intro turn conv store i blocks hle hget hne
      rw [loopAux_zero] at hget
      rw [List.getElem?_eq_none hle] at hget
      exact Option.noConfusion hget
  | succ fuel ih =>
      intro turn conv store i blocks hle hget hne
      cases hm : model conv.messages with
      | error e =>
          rw [loopAux_err model exec now cid fuel turn conv store e hm] at hget
          rw [List.getElem?_eq_none hle] at hget
          exact Option.noConfusion hget
      | ok blocks' =>
          by_cases hz : (toolUses blocks').length = 0
          · rw [loopAux_done model exec now cid fuel turn conv store blocks' hm hz] at hget
            have hmsgs : (withAssistant conv blocks' now).messages
                = conv.messages ++ [⟨Role.assistant, MsgContent.blocks blocks'⟩] := by
              simp [withAssistant]
            rw [hmsgs] at hget
            rcases Nat.lt_or_ge i (conv.messages.length + 1) with hlt | hge
            · have hi : i = conv.messages.length := by omega
              subst hi
              rw [List.getElem?_concat_length] at hget
              simp only [Option.some.injEq, AiChatMessage.mk.injEq,
                MsgContent.blocks.injEq] at hget
              rw [hget.2] at hz
              exact absurd (List.length_eq_zero.1 hz) hne
            · have : (conv.messages ++
                  [(⟨Role.assistant, MsgContent.blocks blocks'⟩ : AiChatMessage)]).length ≤ i := by
                simp; omega
              rw [List.getElem?_eq_none this] at hget
              exact Option.noConfusion hget
          · rw [loopAux_tools_conv model exec now cid fuel turn conv store blocks' hm hz]
              at hget ⊢
            have hlen2 : (loopNextConv exec now conv blocks').messages.length
                = conv.messages.length + 2 := by
              rw [loopNextConv_messages]; simp
            rcases Nat.lt_or_ge i (conv.messages.length + 2) with hlt | hge
            · obtain ⟨t, ht⟩ := loopAux_messages_extend model exec now cid fuel (turn + 1)
                (loopNextConv exec now conv blocks')
                (loopNextStore exec now conv blocks' store)
              rw [ht, loopNextConv_messages] at hget ⊢
              have hi2 : i < (conv.messages ++
                  [(⟨Role.assistant, MsgContent.blocks blocks'⟩ : AiChatMessage),
                   ⟨Role.user, MsgContent.blocks (resultsFor exec (toolUses blocks'))⟩]).length := by
                simp; omega
              rw [List.getElem?_append_left hi2] at hget
              rw [List.getElem?_append_right hle] at hget
              rcases Nat.lt_or_ge i (conv.messages.length + 1) with hlt1 | hge1
              · have hi : i = conv.messages.length := by omega
                subst hi
                simp only [Nat.sub_self, List.getElem?_cons_zero, Option.some.injEq,
                  AiChatMessage.mk.injEq, MsgContent.blocks.injEq] at hget
                have hblocks : blocks' = blocks := hget.2
                subst hblocks
                have hi3 : conv.messages.length + 1 < (conv.messages ++
                    [(⟨Role.assistant, MsgContent.blocks blocks'⟩ : AiChatMessage),
                     ⟨Role.user, MsgContent.blocks (resultsFor exec (toolUses blocks'))⟩]).length := by
                  simp
                rw [List.getElem?_append_left hi3,
                  List.getElem?_append_right (by omega : conv.messages.length ≤ conv.messages.length + 1)]
                simp
              · have hi : i = conv.messages.length + 1 := by omega
                subst hi
                rw [show conv.messages.length + 1 - conv.messages.length = 1 by omega] at hget
                simp only [List.getElem?_cons_succ, List.getElem?_cons_zero,
                  Option.some.injEq, AiChatMessage.mk.injEq] at hget
                exact absurd hget.1 (by simp)
            · exact ih (turn + 1) (loopNextConv exec now conv blocks')
                (loopNextStore exec now conv blocks' store) i blocks
                (by rw [hlen2]; omega)
                hget hne

/-- C1: every assistant turn the loop appends whose block list contains
k ≥ 1 `tool_use` blocks is immediately followed in the transcript by a
user-role message whose content is exactly the k `tool_result` blocks for
those `tool_use` blocks, with matching `tool_use_id`s in the order the
`tool_use` blocks were received (hence equal as multisets), before any
messages of any later model turn. -/
theorem tool_use_blocks_answered_in_order (model : ModelFn) (exec : ExecFn)
    (now : Int) (cid : String) (conv : AiConversation) (store : Store)
    (i : Nat) (blocks : List ContentBlock)
    (hle : conv.messages.length ≤ i)
    (hget : ((streamingChatLoop model exec now cid conv store).conv.messages)[i]?
      = some ⟨Role.assistant, MsgContent.blocks blocks⟩)
    (hne : toolUses blocks ≠ []) :
    ((streamingChatLoop model exec now cid conv store).conv.messages)[i + 1]?
      = some ⟨Role.user, MsgContent.blocks (resultsFor exec (toolUses blocks))⟩ ∧
    (resultsFor exec (toolUses blocks)).length = (toolUses blocks).length ∧
    (resultsFor exec (toolUses blocks)).map toolResultUseId
      = (toolUses blocks).map ToolUseData.id := by
  refine ⟨loopAux_tool_results_follow model exec now cid MAX_TURNS 0 conv store
    i blocks hle hget hne, ?_, ?_⟩
  · simp [resultsFor]
  · simp only [resultsFor, List.map_map]
    rfl

/-- Witness for C1: a run whose first turn requests one bash tool. -/
theorem tool_use_blocks_answered_in_order_witness :
    ((streamingChatLoop
        (fun hist => if hist.length ≤ 1 then Except.ok [ContentBlock.tool_use "t1" "bash" []]
                     else Except.ok [ContentBlock.text "done"])
        (fun _ _ => ⟨"out", false⟩) 0 "c"
        ⟨"c", "t", "m", [⟨Role.user, MsgContent.str "hi"⟩], 0, 0⟩ []).conv.messages)[2]?
      = some ⟨Role.user, MsgContent.blocks
          (resultsFor (fun _ _ => ⟨"out", false⟩)
            (toolUses [ContentBlock.tool_use "t1" "bash" []]))⟩ ∧
    (resultsFor (fun _ _ => (⟨"out", false⟩ : ToolOutcome))
        (toolUses [ContentBlock.tool_use "t1" "bash" []])).length
      = (toolUses [ContentBlock.tool_use "t1" "bash" []]).length ∧
    (resultsFor (fun _ _ => (⟨"out", false⟩ : ToolOutcome))
        (toolUses [ContentBlock.tool_use "t1" "bash" []])).map toolResultUseId
      = (toolUses [ContentBlock.tool_use "t1" "bash" []]).map ToolUseData.id :=
  tool_use_blocks_answered_in_order
    (fun hist => if hist.length ≤ 1 then Except.ok [ContentBlock.tool_use "t1" "bash" []]
                 else Except.ok [ContentBlock.text "done"])
    (fun _ _ => ⟨"out", false⟩) 0 "c"
    ⟨"c", "t", "m", [⟨Role.user, MsgContent.str "hi"⟩], 0, 0⟩ []
    1 [ContentBlock.tool_use "t1" "bash" []]
    (by decide) rfl (fun h => List.noConfusion h)

theorem loopAux_all_tools (model : ModelFn) (exec : ExecFn) (now : Int) (cid : String)
    (H : ∀ hist, ∃ blocks, model hist = Except.ok blocks ∧ toolUses blocks ≠ []) :
    ∀ (fuel turn : Nat) (conv : AiConversation) (store : Store),
    (loopAux model exec now cid fuel turn conv store).trace.length = fuel ∧
    (0 < fuel → ∃ blocks,
      (loopAux model exec now cid fuel turn conv store).conv.messages.getLast?
        = some ⟨Role.user, MsgContent.blocks (resultsFor exec (toolUses blocks))⟩) := by
  intro fuel
  induction fuel with
  | zero =>
      intro turn conv store
      exact ⟨by simp [loopAux_zero], fun h => absurd h (by omega)⟩
  | succ fuel ih =>
      intro turn conv store
      obtain ⟨blocks, hm, hne⟩ := H conv.messages
      have hz : (toolUses blocks).length ≠ 0 := fun h => hne (List.length_eq_zero.1 h)
      rw [loopAux_tools model exec now cid fuel turn conv store blocks hm hz]
      obtain ⟨ihlen, ihlast⟩ := ih (turn + 1) (loopNextConv exec now conv blocks)
        (loopNextStore exec now conv blocks store)
      constructor
      · simpa using ihlen
      · intro _
        cases fuel with
        | zero =>
            refine ⟨blocks, ?_⟩
            show (loopAux model exec now cid 0 (turn + 1)
              (loopNextConv exec now conv blocks)
              (loopNextStore exec now conv blocks store)).conv.messages.getLast? = _
            rw [loopAux_zero]
            show (loopNextConv exec now conv blocks).messages.getLast? = _
            rw [loopNextConv_messages]
            rw [show conv.messages ++
                [(⟨Role.assistant, MsgContent.blocks blocks⟩ : AiChatMessage),
                 ⟨Role.user, MsgContent.blocks (resultsFor exec (toolUses blocks))⟩]
              = (conv.messages ++ [⟨Role.assistant, MsgContent.blocks blocks⟩]) ++
                [⟨Role.user, MsgContent.blocks (resultsFor exec (toolUses blocks))⟩] by
              simp]
            exact List.getLast?_concat _
        | succ fuel' =>
            obtain ⟨blocks', hb'⟩ := ihlast (by omega)
            exact ⟨blocks', hb'⟩

/-- C2: one `chat:ai-send-stream` invocation performs at most
`MAX_TURNS = 20` model invocations; and when every turn keeps requesting
tools the loop stops exactly at the ceiling with the tool results of the
last turn already appended as the final transcript message. -/
theorem turn_budget_bounds_model_calls :
    (∀ (model : ModelFn) (exec : ExecFn) (proxyRunning : Bool) (now : Int)
       (store : Store) (cid msg : String) (mo : Option String),
       (aiSendStream model exec proxyRunning now store cid msg mo).trace.length
         ≤ MAX_TURNS) ∧
    (∀ (model : ModelFn) (exec : ExecFn) (now : Int) (cid : String)
       (conv : AiConversation) (store : Store),
       (∀ hist, ∃ blocks, model hist = Except.ok blocks ∧ toolUses blocks ≠ []) →
       (streamingChatLoop model exec now cid conv store).trace.length = MAX_TURNS ∧
       ∃ blocks,
         (streamingChatLoop model exec now cid conv store).conv.messages.getLast?
           = some ⟨Role.user, MsgContent.blocks (resultsFor exec (toolUses blocks))⟩) := by
  constructor
  · intro model exec proxyRunning now store cid msg mo
    unfold aiSendStream
    by_cases h1 : jsTrim msg = ""
    · simp [h1]
    · rw [if_neg h1]
      by_cases h2 : proxyRunning = false
      · simp [h2]
      · rw [if_neg h2]
        cases hg : storeGet store cid with
        | none => simp
        | some conv =>
            simp only
            cases ht : (streamingChatLoop model exec now cid
                (prepareSend conv msg mo now)
                (storeSave store (prepareSend conv msg mo now))).thrown with
            | none =>
                simp only [ht]
                exact loopAux_trace_length_le model exec now cid MAX_TURNS 0 _ _
            | some e =>
                simp only [ht]
                by_cases hn : e.name = "AbortError" <;>
                  simp only [hn, if_pos, if_neg, ite_true, ite_false] <;>
                  exact loopAux_trace_length_le model exec now cid MAX_TURNS 0 _ _
  · intro model exec now cid conv store H
    obtain ⟨hlen, hlast⟩ := loopAux_all_tools model exec now cid H MAX_TURNS 0 conv store
    exact ⟨hlen, hlast (by decide)⟩

/-- Witness for C2: a model that always requests a tool hits the
20-turn ceiling exactly, with the last message being tool results. -/
theorem turn_budget_bounds_model_calls_witness :
    (streamingChatLoop (fun _ => Except.ok [ContentBlock.tool_use "t" "bash" []])
        (fun _ _ => ⟨"out", false⟩) 0 "c" ⟨"c", "t", "m", [], 0, 0⟩ []).trace.length
      = MAX_TURNS ∧
    ∃ blocks,
      (streamingChatLoop (fun _ => Except.ok [ContentBlock.tool_use "t" "bash" []])
          (fun _ _ => ⟨"out", false⟩) 0 "c"
          ⟨"c", "t", "m", [], 0, 0⟩ []).conv.messages.getLast?
        = some ⟨Role.user, MsgContent.blocks
            (resultsFor (fun _ _ => ⟨"out", false⟩) (toolUses blocks))⟩ :=
  turn_budget_bounds_model_calls.2
    (fun _ => Except.ok [ContentBlock.tool_use "t" "bash" []])
    (fun _ _ => ⟨"out", false⟩) 0 "c" ⟨"c", "t", "m", [], 0, 0⟩ []
    (fun _ => ⟨[ContentBlock.tool_use "t" "bash" []], rfl,
      fun h => List.noConfusion h⟩)

/-- C6: when the in-flight turn of a `chat:ai-send-stream` invocation
rejects with an `AbortError` (the abort handler firing the cancellation
token), the handler returns the distinguished `Aborted` error with a
`Request aborted` stream-error notification — not a generic message —
and the loop performs no further model invocation after the aborted one
(an error entry is always the last of the invocation trace). -/
theorem abort_reported_as_aborted (model : ModelFn) (exec : ExecFn) (now : Int)
    (store : Store) (cid msg : String) (mo : Option String)
    (conv : AiConversation) (e : JsErr)
    (h1 : jsTrim msg ≠ "")
    (hconv : storeGet store cid = some conv)
    (hthrown : (streamingChatLoop model exec now cid (prepareSend conv msg mo now)
        (storeSave store (prepareSend conv msg mo now))).thrown = some e)
    (hname : e.name = "AbortError") :
    (aiSendStream model exec true now store cid msg mo).res
      = IpcResult.err "Aborted" ∧
    (aiSendStream model exec true now store cid msg mo).notifs.getLast?
      = some (ChatNotif.streamError cid "Request aborted") ∧
    (∀ pre h' e' post,
      (aiSendStream model exec true now store cid msg mo).trace
        = pre ++ (h', Except.error e') :: post → post = []) := by
  have hmain : aiSendStream model exec true now store cid msg mo
      = ⟨IpcResult.err "Aborted",
         (streamingChatLoop model exec now cid (prepareSend conv msg mo now)
           (storeSave store (prepareSend conv msg mo now))).store,
         ([ChatNotif.userPersisted cid ⟨Role.user, MsgContent.str (jsTrim msg)⟩] ++
           (streamingChatLoop model exec now cid (prepareSend conv msg mo now)
             (storeSave store (prepareSend conv msg mo now))).notifs) ++
           [ChatNotif.streamError cid "Request aborted"],
         (streamingChatLoop model exec now cid (prepareSend conv msg mo now)
           (storeSave store (prepareSend conv msg mo now))).trace⟩ := by
    simp only [aiSendStream]
    rw [if_neg h1]
    simp only [Bool.true_eq_false, if_false, ite_false]
    rw [hconv]
    simp only [hthrown, hname, if_pos, ite_true, List.append_assoc]
  refine ⟨by rw [hmain], ?_, ?_⟩
  · rw [hmain]
    exact List.getLast?_concat _
  · intro pre h' e' post heq
    rw [hmain] at heq
    exact loopAux_trace_error_is_last model exec now cid MAX_TURNS 0
      (prepareSend conv msg mo now)
      (storeSave store (prepareSend conv msg mo now)) pre h' e' post heq

/-- Witness for C6: a fetch that rejects with `AbortError` on the first
turn of a stored conversation. -/
theorem abort_reported_as_aborted_witness :
    (aiSendStream (fun _ => Except.error ⟨"AbortError", "The operation was aborted"⟩)
        (fun _ _ => ⟨"out", false⟩) true 0
        [("c", encodeConv ⟨"c", "t", "m", [], 0, 0⟩)] "c" "hi" none).res
      = IpcResult.err "Aborted" ∧
    (aiSendStream (fun _ => Except.error ⟨"AbortError", "The operation was aborted"⟩)
        (fun _ _ => ⟨"out", false⟩) true 0
        [("c", encodeConv ⟨"c", "t", "m", [], 0, 0⟩)] "c" "hi" none).notifs.getLast?
      = some (ChatNotif.streamError "c" "Request aborted") ∧
    (∀ pre h' e' post,
      (aiSendStream (fun _ => Except.error ⟨"AbortError", "The operation was aborted"⟩)
          (fun _ _ => ⟨"out", false⟩) true 0
          [("c", encodeConv ⟨"c", "t", "m", [], 0, 0⟩)] "c" "hi" none).trace
        = pre ++ (h', Except.error e') :: post → post = []) :=
  abort_reported_as_aborted
    (fun _ => Except.error ⟨"AbortError", "The operation was aborted"⟩)
    (fun _ _ => ⟨"out", false⟩) 0
    [("c", encodeConv ⟨"c", "t", "m", [], 0, 0⟩)] "c" "hi" none
    ⟨"c", "t", "m", [], 0, 0⟩ ⟨"AbortError", "The operation was aborted"⟩
    (by decide) rfl rfl rfl
